import Mathlib

/-!
Shallow embedding of `src/main.py` of lime-energy/lime-clear-stacks.

The program discovers CloudFormation stacks by inclusion tags, lists each
stack's S3 buckets and DynamoDB tables, drops resources protected by
exclusion tags, and clears the contents of the survivors, honouring a
dry-run flag (`test_mode` in the source).

Provider responses are modelled as explicit data (an `Env` record); each
Python function is translated into a Lean function over that data.  The
pagination of `describe_stacks` is modelled by a list of pages where the
continuation token of page `i` designates page `i + 1`; the source's
`_get_resource_tags`, which never forwards its token argument to the
provider call, is modelled faithfully (it always reads the first page)
with a fuel parameter standing for the Python call stack.
-/

/-- An AWS tag object, the dict shape `\x7b'Key': k, 'Value': v\x7d`. -/
structure Tag where
  Key : String
  Value : String
deriving DecidableEq

/-- Embeds `aws_tags_to_set` (main.py line 11): the set comprehension
`set of Key + colon + Value over the tag list`.  A Python `set` of strings
is modelled as a `Finset String`. -/
def aws_tags_to_set (tags : List Tag) : Finset String :=
  (tags.map (fun x => x.Key ++ ":" ++ x.Value)).toFinset

/-- Embeds `all(tag_match(filter, target))` (main.py lines 23 and 46):
`tag_match` yields, for each tag of the filter set, whether it is in the
target set; Python `all` over that generator is the order-independent
conjunction, i.e. every filter token is in the target. -/
def tag_match_all (filter target : Finset String) : Bool :=
  decide (∀ tag ∈ filter, tag ∈ target)

/-- Embeds `any(tag_match(filter, target))` (main.py lines 95 and 105):
Python `any` over the `tag_match` generator is the order-independent
disjunction, i.e. some filter token is in the target. -/
def tag_match_any (filter target : Finset String) : Bool :=
  decide (∃ tag ∈ filter, tag ∈ target)

/-- C7: `aws_tags_to_set` is a pure total Lean function (hence
deterministic); permuting the tag list leaves the token set unchanged,
duplicated tags collapse, and the empty list yields the empty set. -/
theorem aws_tags_to_set_pure (l₁ l₂ : List Tag) (hperm : l₁.Perm l₂)
    (t : Tag) (l : List Tag) :
    aws_tags_to_set ([] : List Tag) = ∅
    ∧ aws_tags_to_set l₁ = aws_tags_to_set l₂
    ∧ aws_tags_to_set (t :: t :: l) = aws_tags_to_set (t :: l) := by
  refine ⟨rfl, ?_, ?_⟩
  · exact Finset.ext fun x => by
      simp only [aws_tags_to_set, List.mem_toFinset, (hperm.map _).mem_iff]
  · simp [aws_tags_to_set]

/-- Witness for C7 at a concrete permutation of two tags. -/
theorem aws_tags_to_set_pure_witness :
    aws_tags_to_set [⟨"a", "1"⟩, ⟨"b", "2"⟩] = aws_tags_to_set [⟨"b", "2"⟩, ⟨"a", "1"⟩]
    ∧ aws_tags_to_set (⟨"a", "1"⟩ :: ⟨"a", "1"⟩ :: [⟨"b", "2"⟩])
        = aws_tags_to_set (⟨"a", "1"⟩ :: [⟨"b", "2"⟩]) := by
  have h := aws_tags_to_set_pure [⟨"a", "1"⟩, ⟨"b", "2"⟩] [⟨"b", "2"⟩, ⟨"a", "1"⟩]
    (List.Perm.swap _ _ _) ⟨"a", "1"⟩ [⟨"b", "2"⟩]
  exact ⟨h.2.1, h.2.2⟩

/-- C9: the `Key:Value` token encoding is not injective: the single tag
`(a, b:c)` and the single tag `(a:b, c)` are distinct yet produce the same
token set, so neither the inclusion (`all`) nor the exclusion (`any`)
match can distinguish the two tag collections. -/
theorem token_encoding_not_injective :
    (⟨"a", "b:c"⟩ : Tag) ≠ ⟨"a:b", "c"⟩
    ∧ aws_tags_to_set [⟨"a", "b:c"⟩] = aws_tags_to_set [⟨"a:b", "c"⟩]
    ∧ ∀ f : Finset String,
        tag_match_all f (aws_tags_to_set [⟨"a", "b:c"⟩])
          = tag_match_all f (aws_tags_to_set [⟨"a:b", "c"⟩])
        ∧ tag_match_any f (aws_tags_to_set [⟨"a", "b:c"⟩])
          = tag_match_any f (aws_tags_to_set [⟨"a:b", "c"⟩]) := by
  have hset : aws_tags_to_set [⟨"a", "b:c"⟩] = aws_tags_to_set [⟨"a:b", "c"⟩] := by decide
  exact ⟨by decide, hset, fun f => by rw [hset]; exact ⟨rfl, rfl⟩⟩

/-- A CloudFormation stack record as returned by `describe_stacks`.
`Tags` is optional: the source reads `stack.get('Tags', [])`, so a record
may lack the tag collection altogether. -/
structure Stack where
  StackName : String
  Tags : Option (List Tag)
deriving DecidableEq

/-- The inclusion test `get_stacks` applies to one stack (main.py lines
45-52): `all(tag_match(tags_include, aws_tags_to_set(stack.get('Tags', []))))`. -/
def stack_included (tags_include : Finset String) (stack : Stack) : Bool :=
  tag_match_all tags_include (aws_tags_to_set (stack.Tags.getD []))

/-- The continuation token the source sends to fetch page `i` of
`describe_stacks`: the first call passes no token, every later call
passes the token returned by the previous response.  Tokens are modelled
as the index of the page they designate. -/
def stack_page_token (i : Nat) : Option Nat :=
  if i = 0 then none else some i

/-- Embeds the recursion of `get_stacks` (main.py lines 39-60) from page
`i` onwards: each invocation requests one page, filters it with the
inclusion test, yields the survivors in provider order, and recurses on
the next page exactly when the response carried a `NextToken` (that is,
when a further page exists).  The result pairs the yielded stacks with
the continuation tokens requested, in request order.  The recursion is
structural on the remaining pages, so the traversal terminates for every
finite page list, including the empty one. -/
def get_stacks_aux (tags_include : Finset String) :
    List (List Stack) → Nat → List Stack × List (Option Nat)
  | [], _ => ([], [])
  | page :: rest, i =>
    let filtered := page.filter (stack_included tags_include)
    match rest with
    | [] => (filtered, [stack_page_token i])
    | q :: rest' =>
      let next := get_stacks_aux tags_include (q :: rest') (i + 1)
      (filtered ++ next.1, stack_page_token i :: next.2)

/-- Embeds `get_stacks(tags_include)` (main.py line 39): the stacks
yielded over the whole pagination, starting with the token-less call. -/
def get_stacks (tags_include : Finset String) (pages : List (List Stack)) :
    List Stack :=
  (get_stacks_aux tags_include pages 0).1

/-- The continuation tokens `get_stacks` requests over the whole
pagination, in request order. -/
def get_stacks_tokens (tags_include : Finset String) (pages : List (List Stack)) :
    List (Option Nat) :=
  (get_stacks_aux tags_include pages 0).2

theorem get_stacks_aux_fst (tags_include : Finset String) :
    ∀ (pages : List (List Stack)) (i : Nat),
      (get_stacks_aux tags_include pages i).1
        = (pages.map (List.filter (stack_included tags_include))).flatten
  | [], _ => rfl
  | [page], i => by simp [get_stacks_aux]
  | page :: q :: rest, i => by
    simp only [get_stacks_aux, List.map_cons, List.flatten_cons]
    rw [get_stacks_aux_fst tags_include (q :: rest) (i + 1)]
    simp

theorem get_stacks_aux_snd (tags_include : Finset String) :
    ∀ (pages : List (List Stack)) (i : Nat),
      (get_stacks_aux tags_include pages i).2
        = (List.range pages.length).map (fun j => stack_page_token (i + j))
  | [], _ => rfl
  | [page], i => by simp [get_stacks_aux, List.range_succ]
  | page :: q :: rest, i => by
    simp only [get_stacks_aux, List.length_cons]
    rw [get_stacks_aux_snd tags_include (q :: rest) (i + 1)]
    rw [List.range_succ_eq_map]
    simp only [List.map_cons, List.map_map, List.length_cons]
    congr 1
    apply List.map_congr_left
    intro j _
    simp only [Function.comp_apply]
    congr 1
    omega

theorem stack_page_token_injective : Function.Injective stack_page_token := by
  intro a b hab
  by_cases ha : a = 0 <;> by_cases hb : b = 0 <;>
    simp [stack_page_token, ha, hb] at hab <;> omega

theorem filter_join_comm (p : Stack → Bool) :
    ∀ pages : List (List Stack),
      (pages.map (List.filter p)).flatten = pages.flatten.filter p
  | [] => rfl
  | page :: rest => by
    simp only [List.map_cons, List.flatten_cons, List.filter_append,
      filter_join_comm p rest]

theorem get_stacks_eq_filter (tags_include : Finset String)
    (pages : List (List Stack)) :
    get_stacks tags_include pages
      = pages.flatten.filter (stack_included tags_include) := by
  rw [get_stacks, get_stacks_aux_fst, filter_join_comm]

theorem get_stacks_tokens_eq (tags_include : Finset String)
    (pages : List (List Stack)) :
    get_stacks_tokens tags_include pages
      = (List.range pages.length).map stack_page_token := by
  rw [get_stacks_tokens, get_stacks_aux_snd]
  apply List.map_congr_left
  intro j _
  simp

/-- C6: the stack-discovery traversal yields exactly the qualifying
stacks of the concatenation of all pages — in page order, provider order
preserved within each page, each occurrence exactly once; the
continuation tokens it requests are exactly the successive page tokens
(no token first, then the token returned by each page) and no token is
ever requested twice.  `get_stacks_aux` is total by structural recursion,
so the traversal terminates for every finite page list, including the
empty one. -/
theorem get_stacks_pagination (tags_include : Finset String)
    (pages : List (List Stack)) :
    get_stacks tags_include pages
      = pages.flatten.filter (stack_included tags_include)
    ∧ get_stacks_tokens tags_include pages
      = (List.range pages.length).map stack_page_token
    ∧ (get_stacks_tokens tags_include pages).Nodup := by
  refine ⟨get_stacks_eq_filter _ _, get_stacks_tokens_eq _ _, ?_⟩
  rw [get_stacks_tokens_eq]
  exact List.Nodup.map stack_page_token_injective (List.nodup_range _)

/-- C5: a stack appearing in the provider's pages is yielded by
`get_stacks` iff every inclusion filter token is among the stack's own
tag tokens; the empty inclusion filter accepts every stack. -/
theorem get_stacks_inclusion (tags_include : Finset String)
    (pages : List (List Stack)) (stack : Stack)
    (h : stack ∈ pages.flatten) :
    (stack ∈ get_stacks tags_include pages
      ↔ ∀ tok ∈ tags_include, tok ∈ aws_tags_to_set (stack.Tags.getD []))
    ∧ get_stacks (∅ : Finset String) pages = pages.flatten := by
  constructor
  · rw [get_stacks_eq_filter, List.mem_filter]
    simp [h, stack_included, tag_match_all]
  · rw [get_stacks_eq_filter]
    apply List.filter_eq_self.2
    intro a _
    simp [stack_included, tag_match_all]

/-- Witness for C5: a stack tagged `env:prod` in a one-page listing is
yielded under inclusion filter containing exactly the token `env:prod`. -/
theorem get_stacks_inclusion_witness :
    (⟨"s", some [⟨"env", "prod"⟩]⟩ : Stack)
      ∈ get_stacks {"env:prod"} [[⟨"s", some [⟨"env", "prod"⟩]⟩]] := by
  have h := get_stacks_inclusion {"env:prod"} [[⟨"s", some [⟨"env", "prod"⟩]⟩]]
    ⟨"s", some [⟨"env", "prod"⟩]⟩ (by simp)
  exact h.1.mpr (by decide)

/-- C10: a stack record carrying no tag collection at all is treated as
having the empty tag set (`stack.get('Tags', [])`): it passes the empty
inclusion filter and fails every non-empty inclusion filter.
`stack_included` is a total function, so the traversal does not fail on
the missing field. -/
theorem stack_missing_tags (stack : Stack) (h : stack.Tags = none)
    (tags_include : Finset String) (hne : tags_include.Nonempty) :
    aws_tags_to_set (stack.Tags.getD []) = ∅
    ∧ stack_included ∅ stack = true
    ∧ stack_included tags_include stack = false := by
  refine ⟨by rw [h]; rfl, by simp [stack_included, tag_match_all], ?_⟩
  obtain ⟨tok, htok⟩ := hne
  simp only [stack_included, tag_match_all, h]
  rw [decide_eq_false_iff_not]
  intro hall
  have := hall tok htok
  simp [aws_tags_to_set] at this

/-- Witness for C10: a concrete stack with a missing tag collection. -/
theorem stack_missing_tags_witness :
    stack_included ∅ ⟨"s", none⟩ = true
    ∧ stack_included {"env:prod"} ⟨"s", none⟩ = false := by
  have h := stack_missing_tags ⟨"s", none⟩ rfl {"env:prod"}
    ⟨"env:prod", by simp⟩
  exact ⟨h.2.1, h.2.2⟩

/-- A DynamoDB item, modelled as an association list from attribute name
to attribute value. -/
abbrev Item := List (String × String)

/-- Projection of an item to the given attribute names, the server-side
effect of the scan's `AttributesToGet` parameter. -/
def project_item (attrs : List String) (item : Item) : Item :=
  item.filter (fun kv => attrs.contains kv.1)

/-- The state of one DynamoDB table: the attribute names of its key
schema (`[x.get('AttributeName') for x in table.key_schema]`) and the
successive pages its scan returns — one `table.scan` call answers with
the first page only, later pages require follow-up calls with the
response's `LastEvaluatedKey`. -/
structure TableState where
  key_schema : List String
  scanPages : List (List Item)

/-- One observable interaction of the clearers: a console progress line,
the single bulk S3 object deletion (`bucket.objects.all().delete()`), a
table scan request (`table.scan(AttributesToGet=...)`), or one batched
key deletion (`batch.delete_item(Key=...)`). -/
inductive Event where
  | outLine (line : String)
  | s3DeleteAllObjects (bucket : String)
  | dynamoScan (table : String) (attrs : List String)
  | dynamoBatchDelete (table : String) (key : Item)
deriving DecidableEq

/-- Whether an event is a provider call of the clearers (object delete,
scan, or batched delete) rather than console output. -/
def Event.isClearCall : Event → Bool
  | .outLine _ => false
  | _ => true

/-- Whether an event is one console progress line. -/
def Event.isOutLine : Event → Bool
  | .outLine _ => true
  | _ => false

/-- Embeds `clear_buckets` (main.py lines 115-120) as the list of events
its loop produces: one progress line per bucket and, unless `test_mode`
is set, the single bulk deletion of all the bucket's objects. -/
def clear_buckets (test_mode : Bool) : List String → List Event
  | [] => []
  | bucket_name :: rest =>
    Event.outLine ("└─Bucket: " ++ bucket_name)
      :: ((if test_mode then [] else [Event.s3DeleteAllObjects bucket_name])
        ++ clear_buckets test_mode rest)

/-- Embeds `clear_dynamo_tables` (main.py lines 122-131) as the list of
events its loop produces: one progress line per table and, unless
`test_mode` is set, one scan projected to the key-schema attributes
followed by one batched deletion per item of `scan['Items']`.  The
source reads `scan['Items']` of the single scan response — the first
scan page — and has no `LastEvaluatedKey` follow-up loop. -/
def clear_dynamo_tables (tables : String → TableState) (test_mode : Bool) :
    List String → List Event
  | [] => []
  | table_name :: rest =>
    Event.outLine ("└─Table: " ++ table_name)
      :: ((if test_mode then []
          else
            let table := tables table_name
            let primary_key := table.key_schema
            let items := (table.scanPages.headD []).map (project_item primary_key)
            Event.dynamoScan table_name primary_key
              :: items.map (fun each => Event.dynamoBatchDelete table_name each))
        ++ clear_dynamo_tables tables test_mode rest)

theorem clear_buckets_no_calls_in_dry_run :
    ∀ buckets : List String,
      (clear_buckets true buckets).filter Event.isClearCall = []
  | [] => rfl
  | b :: rest => by
    simp [clear_buckets, List.filter_cons, Event.isClearCall,
      clear_buckets_no_calls_in_dry_run rest]

theorem clear_dynamo_tables_no_calls_in_dry_run (tables : String → TableState) :
    ∀ table_names : List String,
      (clear_dynamo_tables tables true table_names).filter Event.isClearCall = []
  | [] => rfl
  | t :: rest => by
    simp [clear_dynamo_tables, List.filter_cons, Event.isClearCall,
      clear_dynamo_tables_no_calls_in_dry_run tables rest]

theorem clear_buckets_one_line_each (test_mode : Bool) :
    ∀ buckets : List String,
      (clear_buckets test_mode buckets).countP Event.isOutLine = buckets.length
  | [] => by cases test_mode <;> rfl
  | b :: rest => by
    cases test_mode <;>
      simp [clear_buckets, List.countP_cons, List.countP_append, Event.isOutLine,
        clear_buckets_one_line_each _ rest]

theorem clear_dynamo_tables_one_line_each (tables : String → TableState)
    (test_mode : Bool) :
    ∀ table_names : List String,
      (clear_dynamo_tables tables test_mode table_names).countP Event.isOutLine
        = table_names.length
  | [] => by cases test_mode <;> rfl
  | t :: rest => by
    cases test_mode <;>
      simp [clear_dynamo_tables, List.countP_cons, List.countP_append,
        List.countP_map, Event.isOutLine, Function.comp,
        clear_dynamo_tables_one_line_each tables _ rest]

/-- C3: with dry-run set, `clear_buckets` and `clear_dynamo_tables`
issue no mutating provider call — no object deletion, no scan, no
batched delete — for any resource list and any table contents, yet still
emit exactly one progress line per resource; with dry-run unset the same
single progress line per resource is emitted as well. -/
theorem dry_run_frame (tables : String → TableState)
    (buckets table_names : List String) :
    (clear_buckets true buckets).filter Event.isClearCall = []
    ∧ (clear_dynamo_tables tables true table_names).filter Event.isClearCall = []
    ∧ (clear_buckets true buckets).countP Event.isOutLine = buckets.length
    ∧ (clear_dynamo_tables tables true table_names).countP Event.isOutLine
        = table_names.length
    ∧ (clear_buckets false buckets).countP Event.isOutLine = buckets.length
    ∧ (clear_dynamo_tables tables false table_names).countP Event.isOutLine
        = table_names.length :=
  ⟨clear_buckets_no_calls_in_dry_run buckets,
    clear_dynamo_tables_no_calls_in_dry_run tables table_names,
    clear_buckets_one_line_each true buckets,
    clear_dynamo_tables_one_line_each tables true table_names,
    clear_buckets_one_line_each false buckets,
    clear_dynamo_tables_one_line_each tables false table_names⟩

/-- A concrete table whose scan spans two pages: page one holds the item
with key attribute `pk = 1` plus a payload attribute, page two holds the
item with key attribute `pk = 2`. -/
def twoPageTable : TableState :=
  ⟨["pk"], [[[("pk", "1"), ("payload", "x")]], [[("pk", "2")]]]⟩

/-- A table environment mapping every name to `twoPageTable`. -/
def twoPageTables : String → TableState := fun _ => twoPageTable

/-- C1 at the failing input: against a table whose scan spans two pages,
`clear_dynamo_tables` outside dry-run issues one scan projected to the
key attributes and batch-deletes exactly the keys of the first page; the
key `pk = 2`, which the table's full scan (page two) returns, is never
deleted — the source has no `LastEvaluatedKey` loop, so scan pagination
is not drained. -/
theorem clear_table_first_page_only :
    clear_dynamo_tables twoPageTables false ["t"]
      = [Event.outLine "└─Table: t", Event.dynamoScan "t" ["pk"],
          Event.dynamoBatchDelete "t" [("pk", "1")]]
    ∧ ([("pk", "2")] : Item)
        ∈ twoPageTable.scanPages.flatten.map (project_item ["pk"])
    ∧ Event.dynamoBatchDelete "t" [("pk", "2")]
        ∉ clear_dynamo_tables twoPageTables false ["t"] := by
  refine ⟨by decide, by decide, by decide⟩

/-- One page of a `list_tags_of_resource` response. -/
structure TagPage where
  Tags : List Tag
  NextToken : Option String
deriving DecidableEq

/-- The tag-listing call exactly as the source makes it (main.py line
71): `cli.list_tags_of_resource(ResourceArn=arn)` passes no continuation
token, so the provider always answers with the first page. -/
def list_tags_of_resource (pages : List TagPage) : TagPage :=
  pages.headD ⟨[], none⟩

/-- Embeds `_get_resource_tags` (main.py lines 69-80) with a fuel
parameter standing for the Python call stack.  The source shadows its
`token` argument before any use and never forwards it to the provider
call, so every recursive call reads the first page again; the recursion
stops only when the first page carries no `NextToken`.  A `none` result
means the recursion did not finish within the given fuel — in Python the
function keeps recursing until `RecursionError`. -/
def get_resource_tags (pages : List TagPage) : Nat → Option (List Tag)
  | 0 => none
  | fuel + 1 =>
    let res := list_tags_of_resource pages
    match res.NextToken with
    | none => some res.Tags
    | some _ => (get_resource_tags pages fuel).map (fun more => res.Tags ++ more)

/-- C2 at the failing input: when the first page of a table's tag
listing carries a continuation token, `_get_resource_tags` never
finishes, whatever the fuel — having dropped its token argument, every
recursive call requests the same (token-less) first page again instead
of the next one, so the traversal neither advances through the token
sequence nor terminates. -/
theorem get_resource_tags_never_terminates :
    ∀ fuel : Nat,
      get_resource_tags
        [⟨[⟨"k", "v"⟩], some "tok"⟩, ⟨[⟨"k2", "v2"⟩], none⟩] fuel = none := by
  intro fuel
  induction fuel with
  | zero => rfl
  | succ n ih => simp [get_resource_tags, list_tags_of_resource, ih]

/-- A stack resource descriptor from `describe_stack_resources`. -/
structure Resource where
  ResourceType : String
  PhysicalResourceId : String
deriving DecidableEq

/-- The provider world the program runs against: the pages of
`describe_stacks`, each stack's (single-page) resource list, each
bucket's tag list (`get_bucket_tagging`), each table's resolved ARN and
the pages of its `list_tags_of_resource`, and each table's state. -/
structure Env where
  stackPages : List (List Stack)
  stackResources : String → List Resource
  s3Tags : String → List Tag
  tableArn : String → String
  dynamoTagPages : String → List TagPage
  tables : String → TableState

/-- Embeds `get_s3_tags` (main.py lines 62-66): the bucket's tag list
converted to a token set. -/
def get_s3_tags (env : Env) (bucket_name : String) : Finset String :=
  aws_tags_to_set (env.s3Tags bucket_name)

/-- Embeds `get_dynamo_tags` (main.py lines 68-85): resolves the table's
ARN, drains `_get_resource_tags` (within the given fuel) and converts
the collected tags to a token set; `none` when the inner recursion does
not finish. -/
def get_dynamo_tags (env : Env) (fuel : Nat) (table_name : String) :
    Option (Finset String) :=
  (get_resource_tags (env.dynamoTagPages (env.tableArn table_name)) fuel).map
    aws_tags_to_set

/-- The bucket candidates of a stack (main.py lines 91-92): the physical
ids of its resources of type `AWS::S3::Bucket`, in resource-list order. -/
def bucket_candidates (env : Env) (stack : Stack) : List String :=
  ((env.stackResources stack.StackName).filter
    (fun r => r.ResourceType == "AWS::S3::Bucket")).map Resource.PhysicalResourceId

/-- The table candidates of a stack (main.py line 103): the physical ids
of its resources of type `AWS::DynamoDB::Table`, in resource-list order. -/
def table_candidates (env : Env) (stack : Stack) : List String :=
  ((env.stackResources stack.StackName).filter
    (fun r => r.ResourceType == "AWS::DynamoDB::Table")).map Resource.PhysicalResourceId

/-- The exclusion filtering of the table candidates (main.py lines
104-111), the generator drained: a table survives when no exclusion
token is among its tags; `none` as soon as one table's tag fetch does
not finish. -/
def filter_tables (env : Env) (fuel : Nat) (tags_exclude : Finset String) :
    List String → Option (List String)
  | [] => some []
  | table :: rest =>
    match get_dynamo_tags env fuel table,
        filter_tables env fuel tags_exclude rest with
    | some tags, some rest' =>
      if tag_match_any tags_exclude tags then some rest' else some (table :: rest')
    | _, _ => none

/-- Embeds `get_resources` (main.py lines 87-113): the bucket candidates
surviving the exclusion filter (`not any(tag_match(...))`), paired with
the table candidates surviving it (`none` when a table tag fetch does
not finish). -/
def get_resources (env : Env) (fuel : Nat) (stack : Stack)
    (tags_exclude : Finset String) : List String × Option (List String) :=
  ((bucket_candidates env stack).filter
      (fun bucket => !tag_match_any tags_exclude (get_s3_tags env bucket)),
    filter_tables env fuel tags_exclude (table_candidates env stack))

theorem filter_tables_mem (env : Env) (fuel : Nat) (tags_exclude : Finset String)
    (t : String) (ttags : Finset String)
    (htags : get_dynamo_tags env fuel t = some ttags) :
    ∀ (ts surviving : List String),
      filter_tables env fuel tags_exclude ts = some surviving →
      (t ∈ surviving ↔ t ∈ ts ∧ tag_match_any tags_exclude ttags = false)
  | [], surviving, h => by
    simp only [filter_tables, Option.some.injEq] at h
    subst h
    simp
  | x :: rest, surviving, h => by
    rw [filter_tables] at h
    cases hx : get_dynamo_tags env fuel x with
    | none => rw [hx] at h; exact absurd h (by simp)
    | some xtags =>
      cases hrest : filter_tables env fuel tags_exclude rest with
      | none => rw [hx, hrest] at h; exact absurd h (by simp)
      | some rest' =>
        rw [hx, hrest] at h
        dsimp only at h
        have ih := filter_tables_mem env fuel tags_exclude t ttags htags rest rest' hrest
        by_cases hexc : tag_match_any tags_exclude xtags = true
        · rw [if_pos hexc] at h
          obtain rfl : rest' = surviving := by simpa using h
          rw [ih]
          constructor
          · exact fun ⟨hin, hf⟩ => ⟨List.mem_cons_of_mem _ hin, hf⟩
          · rintro ⟨hin, hf⟩
            refine ⟨?_, hf⟩
            rcases List.mem_cons.1 hin with rfl | hin'
            · rw [htags] at hx
              obtain rfl : ttags = xtags := by simpa using hx
              rw [hexc] at hf
              exact absurd hf (by simp)
            · exact hin'
        · rw [if_neg hexc] at h
          obtain rfl : x :: rest' = surviving := by simpa using h
          rw [List.mem_cons, ih, List.mem_cons]
          constructor
          · rintro (rfl | ⟨hin, hf⟩)
            · rw [htags] at hx
              obtain rfl : ttags = xtags := by simpa using hx
              exact ⟨Or.inl rfl, by simpa using hexc⟩
            · exact ⟨Or.inr hin, hf⟩
          · rintro ⟨rfl | hin', hf⟩
            · exact Or.inl rfl
            · exact Or.inr ⟨hin', hf⟩

/-- C4: a resource is omitted from the clear candidates iff at least one
exclusion filter token occurs in the resource's own tag set: a bucket
candidate survives iff no exclusion token is among its bucket tags, a
table candidate (whose tag fetch finished) survives iff no exclusion
token is among its table tags, and the empty exclusion filter protects
no resource (stated for the buckets; for tables it is an instance of the
equivalence, since no token of the empty set is present anywhere). -/
theorem resources_exclusion (env : Env) (fuel : Nat)
    (tags_exclude : Finset String) (stack : Stack)
    (bucket : String) (hb : bucket ∈ bucket_candidates env stack)
    (surviving : List String) (table : String) (ttags : Finset String)
    (hres : (get_resources env fuel stack tags_exclude).2 = some surviving)
    (ht : table ∈ table_candidates env stack)
    (htags : get_dynamo_tags env fuel table = some ttags) :
    (bucket ∈ (get_resources env fuel stack tags_exclude).1
      ↔ ¬ ∃ tok ∈ tags_exclude, tok ∈ get_s3_tags env bucket)
    ∧ (table ∈ surviving ↔ ¬ ∃ tok ∈ tags_exclude, tok ∈ ttags)
    ∧ (get_resources env fuel stack ∅).1 = bucket_candidates env stack := by
  refine ⟨?_, ?_, ?_⟩
  · rw [get_resources, List.mem_filter]
    simp [hb, tag_match_any]
  · rw [get_resources] at hres
    rw [filter_tables_mem env fuel tags_exclude table ttags htags _ surviving hres]
    simp [ht, tag_match_any]
  · rw [get_resources]
    apply List.filter_eq_self.2
    intro a _
    simp [tag_match_any]

/-- A concrete environment for the C4 witness: one stack owning the
bucket `b1` (untagged) and the table `t1` (untagged, single tag page). -/
def c4Env : Env where
  stackPages := [[⟨"s", some []⟩]]
  stackResources := fun _ =>
    [⟨"AWS::S3::Bucket", "b1"⟩, ⟨"AWS::DynamoDB::Table", "t1"⟩]
  s3Tags := fun _ => []
  tableArn := fun name => name
  dynamoTagPages := fun _ => [⟨[], none⟩]
  tables := fun _ => ⟨["pk"], []⟩

/-- Witness for C4 at the concrete environment `c4Env` with exclusion
filter containing the single token `protected:true`. -/
theorem resources_exclusion_witness :
    ("b1" ∈ (get_resources c4Env 1 ⟨"s", some []⟩ {"protected:true"}).1
      ↔ ¬ ∃ tok ∈ ({"protected:true"} : Finset String),
          tok ∈ get_s3_tags c4Env "b1")
    ∧ ("t1" ∈ ["t1"]
      ↔ ¬ ∃ tok ∈ ({"protected:true"} : Finset String), tok ∈ (∅ : Finset String)) := by
  have h := resources_exclusion c4Env 1 {"protected:true"} ⟨"s", some []⟩
    "b1" (by decide) ["t1"] "t1" ∅ (by decide) (by decide) (by decide)
  exact ⟨h.1, h.2.1⟩

/-- The four header lines `run` prints for each discovered stack
(main.py lines 135-138). -/
def stack_header (stack : Stack) : List Event :=
  [Event.outLine "", Event.outLine "######################################",
    Event.outLine ("Stack: " ++ stack.StackName), Event.outLine "Resources:"]

/-- The per-stack loop of `run` (main.py lines 134-142) over an explicit
stack list: for each stack, the header lines, then bucket clearing, then
table clearing; `none` when a table tag fetch does not finish. -/
def run_stacks (env : Env) (fuel : Nat) (test_mode : Bool)
    (tags_exclude : Finset String) : List Stack → Option (List Event)
  | [] => some []
  | stack :: rest =>
    match get_resources env fuel stack tags_exclude with
    | (buckets, some tables) =>
      match run_stacks env fuel test_mode tags_exclude rest with
      | some restEvents =>
        some (stack_header stack ++ clear_buckets test_mode buckets
          ++ clear_dynamo_tables env.tables test_mode tables ++ restEvents)
      | none => none
    | (_, none) => none

/-- Embeds `run` (main.py lines 133-142): drives the discovered stacks
in discovery order through resource resolution and the clearers. -/
def run (env : Env) (fuel : Nat) (test_mode : Bool)
    (tags_include tags_exclude : Finset String) : Option (List Event) :=
  run_stacks env fuel test_mode tags_exclude
    (get_stacks tags_include env.stackPages)

/-- The environment of the end-to-end scenario: one stack tagged
`env:prod` owning the untagged bucket `b1` and the bucket `b2` tagged
`protected:true`; no tables. -/
def c8Env : Env where
  stackPages := [[⟨"stack1", some [⟨"env", "prod"⟩]⟩]]
  stackResources := fun _ =>
    [⟨"AWS::S3::Bucket", "b1"⟩, ⟨"AWS::S3::Bucket", "b2"⟩]
  s3Tags := fun b => if b == "b2" then [⟨"protected", "true"⟩] else []
  tableArn := fun name => name
  dynamoTagPages := fun _ => [⟨[], none⟩]
  tables := fun _ => ⟨["pk"], []⟩

/-- C8: in the scenario of one stack tagged `env:prod` owning the
untagged bucket `b1` and the bucket `b2` tagged `protected:true`,
running with inclusion filter containing `env:prod` and exclusion filter
containing `protected:true` produces exactly the stack header, the
progress line for `b1` and the single clearing of `b1` — `b2` is
protected, and nothing else is cleared. -/
theorem end_to_end_clears_b1_only :
    run c8Env 1 false {"env:prod"} {"protected:true"}
      = some [Event.outLine "", Event.outLine "######################################",
          Event.outLine "Stack: stack1", Event.outLine "Resources:",
          Event.outLine "└─Bucket: b1", Event.s3DeleteAllObjects "b1"]
    ∧ ((run c8Env 1 false {"env:prod"} {"protected:true"}).getD []).filter
          Event.isClearCall
        = [Event.s3DeleteAllObjects "b1"] := by
  refine ⟨by decide, by decide⟩
